import Mathlib

/-!
Shallow embedding of the `egui_file` dialog controller (`src/lib.rs`).

Modelling conventions:
* Filesystem paths are lists of components (`List String`); the final
  component is the display name (Rust `Path::file_name` is `getLast?`,
  which is `none` for an empty component list).
* The unix configuration of the crate is modelled (the `#[cfg(windows)]`
  drive-letter code is compiled out there; `#[cfg(unix)] show_hidden`
  is a field).
* The two injected closures (`show_files_filter : Filter<PathBuf>` and
  `filename_filter : Filter<String>`) are fixed at construction; they are
  passed as explicit function arguments instead of being stored in the
  state record, so that the state keeps decidable equality.
* Filesystem effects (`fs::read_dir`, `fs::rename`, `fs::create_dir`,
  `Path::is_dir` / `is_file` probes) are supplied by an explicit oracle
  record `Fs`.
* Rust functions that can panic (slice indexing `files[idx]` with an out
  of range index) are embedded as `Option`-valued functions, `none`
  standing for the panic.
-/

namespace EguiFile

/-- Dialog state (`enum State`). -/
inductive State where
  | Open
  | Closed
  | Cancelled
  | Selected
deriving DecidableEq, Repr

/-- Dialog type (`enum DialogType`). -/
inductive DialogType where
  | SelectFolder
  | OpenFile
  | SaveFile
deriving DecidableEq, Repr

/-- `struct FileInfo { path, dir, selected }`.  The path is stored as its
list of components. -/
structure FileInfo where
  path : List String
  dir : Bool
  selected : Bool
deriving DecidableEq, Repr

/-- `get_file_name` (unix configuration: no drive-root special case):
`info.path.file_name().and_then(|n| n.to_str()).unwrap_or_default()`. -/
def get_file_name (info : FileInfo) : String :=
  (info.path.getLast?).getD ""

/-- A raw directory entry as observed by `read_folder` before filtering:
its path, the `is_dir` probe made by `FileInfo::new`, and the `is_file`
probe made on non-directories. -/
structure RawEntry where
  path : List String
  dir : Bool
  isFile : Bool
deriving DecidableEq, Repr

/-- Lexicographic comparison of character sequences (Rust `OsStr`
ordering compares the underlying byte sequences; on UTF-8 data the byte
order and the scalar-value order coincide). -/
def charsCmp : List Char → List Char → Ordering
  | [], [] => .eq
  | [], _ :: _ => .lt
  | _ :: _, [] => .gt
  | a :: as, b :: bs =>
    if a < b then .lt else if b < a then .gt else charsCmp as bs

/-- String comparison, `Ordering`-valued: lexicographic on the character
data (Rust `OsStr` comparison). -/
def strCmp (a b : String) : Ordering := charsCmp a.data b.data

/-- The non-strict lexicographic order on strings induced by `strCmp`. -/
def strLe (a b : String) : Prop := strCmp a b ≠ Ordering.gt

instance : DecidableRel strLe := fun a b => by
  unfold strLe; infer_instance

/-- Rust `str::starts_with('.')`: the first character is a dot. -/
def startsWithDot (s : String) : Bool :=
  match s.data with
  | c :: _ => c == '.'
  | [] => false

/-- `Option<&OsStr>` comparison: `None` sorts before `Some` (Rust `Ord`
on `Option`). -/
def optNameCmp : Option String → Option String → Ordering
  | none, none => .eq
  | none, some _ => .lt
  | some _, none => .gt
  | some a, some b => strCmp a b

/-- Rust `bool` ordering: `false < true`. -/
def boolCmp : Bool → Bool → Ordering
  | false, false => .eq
  | false, true => .lt
  | true, false => .gt
  | true, true => .eq

/-- The comparator of `read_folder`'s sort (`lib.rs` lines 811-814):
```
file_infos.sort_by(|a, b| match a.dir == b.dir {
  true => a.path.file_name().cmp(&b.path.file_name()),
  false => b.dir.cmp(&a.dir),
});
``` -/
def fileInfoCmp (a b : FileInfo) : Ordering :=
  if a.dir = b.dir then optNameCmp a.path.getLast? b.path.getLast?
  else boolCmp b.dir a.dir

/-- The non-strict order induced by `fileInfoCmp`; a stable comparator
sort puts `a` before `b` exactly when `cmp a b ≠ Greater`. -/
def fiLe (a b : FileInfo) : Prop := fileInfoCmp a b ≠ Ordering.gt

instance : DecidableRel fiLe := fun a b => by
  unfold fiLe; infer_instance

/-- The per-entry filter of `read_folder` (`lib.rs` lines 787-807), unix
configuration: non-directories must pass the `is_file` probe and the
injected `show_files_filter`; dot-named entries are dropped unless
`show_hidden`. -/
def readFolderEntry (show_files_filter : List String → Bool)
    (show_hidden : Bool) (e : RawEntry) : Option FileInfo :=
  let info : FileInfo := { path := e.path, dir := e.dir, selected := false }
  if !info.dir then
    if !e.isFile then none
    else if !(show_files_filter info.path) then none
    else if !show_hidden && startsWithDot (get_file_name info) then none
    else some info
  else
    if !show_hidden && startsWithDot (get_file_name info) then none
    else some info

/-- `read_folder` (`lib.rs` lines 783-835), unix configuration: a failed
`fs::read_dir` is captured as the listing's error value; a successful
enumeration is filtered per entry and sorted with the comparator
`fileInfoCmp` (Rust `sort_by` is a stable comparator sort, embedded as
insertion sort on the induced order). -/
def read_folder (show_files_filter : List String → Bool)
    (show_hidden : Bool) (raw : Except String (List RawEntry)) :
    Except String (List FileInfo) :=
  raw.map fun entries =>
    (entries.filterMap (readFolderEntry show_files_filter show_hidden)).insertionSort fiLe

instance {ε α : Type} [DecidableEq ε] [DecidableEq α] : DecidableEq (Except ε α) := fun x y =>
  match x, y with
  | .ok a, .ok b =>
    if h : a = b then .isTrue (by rw [h]) else .isFalse (by simp [h])
  | .error a, .error b =>
    if h : a = b then .isTrue (by rw [h]) else .isFalse (by simp [h])
  | .ok _, .error _ => .isFalse (by simp)
  | .error _, .ok _ => .isFalse (by simp)

/-- The mutable state of `struct FileDialog` (`lib.rs` lines 37-81),
restricted to the fields that carry model state (the purely visual
configuration fields -- title, id, geometry, anchor -- and the closure
fields are omitted; closures are passed as arguments). -/
structure FileDialog where
  path : List String
  path_edit : String
  selected_file : Option FileInfo
  filename_edit : String
  files : Except String (List FileInfo)
  state : State
  dialog_type : DialogType
  rename : Bool
  new_folder : Bool
  multi_select_enabled : Bool
  range_start : Option Nat
  show_hidden : Bool
deriving DecidableEq, Repr

/-- Rendering of a path for the editable `path_edit` buffer
(`path.to_str()`). -/
def pathToStr (p : List String) : String :=
  String.intercalate "/" p

/-- Filesystem oracle: the external effects consumed by the controller. -/
structure Fs where
  readDir : List String → Except String (List RawEntry)
  isDir : List String → Bool
  renameOk : List String → List String → Bool
  createDirOk : List String → Bool

/-- `FileInfo::new(path)`: probes `is_dir` once. -/
def FileInfo.new (fs : Fs) (path : List String) : FileInfo :=
  { path := path, dir := fs.isDir path, selected := false }

namespace FileDialog

/-- `fn select(&mut self, file: Option<FileInfo>)` (`lib.rs` 360-365):
copies the display name into `filename_edit` only when the argument is
`Some`, then stores the argument as `selected_file`. -/
def select (d : FileDialog) (file : Option FileInfo) : FileDialog :=
  let d :=
    match file with
    | some info => { d with filename_edit := get_file_name info }
    | none => d
  { d with selected_file := file }

/-- `fn select_reset_multi(&mut self, idx: usize)` (`lib.rs` 367-376):
on an `Ok` listing reads `files[idx].selected` (panics when out of
range), clears every flag, sets `idx`'s flag to the negation of the old
value and the anchor to `idx`; no-op on an `Err` listing. -/
def select_reset_multi (d : FileDialog) (idx : Nat) : Option FileDialog :=
  match d.files with
  | .error _ => some d
  | .ok files =>
    match files[idx]? with
    | none => none
    | some fi =>
      let cleared := files.map fun f => { f with selected := false }
      some { d with
        files := .ok (cleared.set idx { fi with selected := !fi.selected }),
        range_start := some idx }

/-- `fn select_switch_multi(&mut self, idx: usize)` (`lib.rs` 378-389):
on an `Ok` listing flips `files[idx].selected` (panics when out of
range) and sets the anchor to `idx` when now selected, clears it when
now deselected; on an `Err` listing clears the anchor. -/
def select_switch_multi (d : FileDialog) (idx : Nat) : Option FileDialog :=
  match d.files with
  | .error _ => some { d with range_start := none }
  | .ok files =>
    match files[idx]? with
    | none => none
    | some fi =>
      let fi' := { fi with selected := !fi.selected }
      some { d with
        files := .ok (files.set idx fi'),
        range_start := if fi'.selected then some idx else none }

/-- The loop `for i in min..=max { files[i].selected = true }` of
`select_range`, as a structural recursion on the remaining iteration
count: `none` is the panic of `files[i]` with `i` out of range. -/
def setSelectedGo (files : List FileInfo) (lo : Nat) : Nat → Option (List FileInfo)
  | 0 => some files
  | n + 1 =>
    match files[lo]? with
    | some f => setSelectedGo (files.set lo { f with selected := true }) (lo + 1) n
    | none => none

/-- `fn select_range(&mut self, idx: usize)` (`lib.rs` 391-400): on an
`Ok` listing with an anchor, sets `selected = true` on every index of
`min(idx, anchor)..=max(idx, anchor)` (panicking when the span leaves
the listing); no-op without an anchor or on an `Err` listing. -/
def select_range (d : FileDialog) (idx : Nat) : Option FileDialog :=
  match d.files with
  | .error _ => some d
  | .ok files =>
    match d.range_start with
    | none => some d
    | some rs =>
      (setSelectedGo files (min idx rs) (max idx rs + 1 - min idx rs)).map
        fun files' => { d with files := .ok files' }

/-- `fn can_save(&self)` (`lib.rs` 402-404). -/
def can_save (filename_filter : String → Bool) (d : FileDialog) : Bool :=
  !d.filename_edit.isEmpty && filename_filter d.filename_edit

/-- `fn can_open(&self)` (`lib.rs` 406-419). -/
def can_open (filename_filter : String → Bool) (d : FileDialog) : Bool :=
  if d.multi_select_enabled then
    match d.files with
    | .ok files => files.any fun file => file.selected && filename_filter (get_file_name file)
    | .error _ => false
  else
    !d.filename_edit.isEmpty && filename_filter d.filename_edit

/-- `fn can_rename(&self)` (`lib.rs` 421-428). -/
def can_rename (d : FileDialog) : Bool :=
  if !d.filename_edit.isEmpty then
    match d.selected_file with
    | some file => get_file_name file != d.filename_edit
    | none => false
  else false

/-- `fn selection(&self)` (`lib.rs` 300-314): the paths of the selected
entries of an `Ok` listing, the empty collection on an `Err` listing. -/
def selection (d : FileDialog) : List (List String) :=
  match d.files with
  | .ok files => files.filterMap fun info => if info.selected then some info.path else none
  | .error _ => []

/-- `fn confirm(&mut self)` (`lib.rs` 349-351). -/
def confirm (d : FileDialog) : FileDialog :=
  { d with state := .Selected }

/-- `fn refresh(&mut self)` (`lib.rs` 353-358): re-reads the folder,
re-synchronizes `path_edit`, calls `select(None)` and clears
`selected_file`. -/
def refresh (show_files_filter : List String → Bool) (fs : Fs)
    (d : FileDialog) : FileDialog :=
  let d := { d with
    files := read_folder show_files_filter d.show_hidden (fs.readDir d.path),
    path_edit := pathToStr d.path }
  let d := d.select none
  { d with selected_file := none }

/-- `fn set_path(&mut self, path)` (`lib.rs` 322-325). -/
def set_path (show_files_filter : List String → Bool) (fs : Fs)
    (d : FileDialog) (p : List String) : FileDialog :=
  refresh show_files_filter fs { d with path := p }

/-- `fn open_selected(&mut self)` (`lib.rs` 337-347). -/
def open_selected (show_files_filter : List String → Bool) (fs : Fs)
    (d : FileDialog) : FileDialog :=
  match d.selected_file with
  | some info =>
    if info.dir then d.set_path show_files_filter fs info.path
    else if d.dialog_type = .OpenFile then d.confirm
    else d
  | none =>
    if d.multi_select_enabled && d.dialog_type = .OpenFile then d.confirm
    else d

/-- `fn get_folder(&self)` (`lib.rs` 772-781). -/
def get_folder (d : FileDialog) : List String :=
  match d.selected_file with
  | some info => if info.dir then info.path else d.path
  | none => d.path

end FileDialog

/-- The `enum Command` local to `ui_in_window` (`lib.rs` 475-490). -/
inductive Command where
  | Cancel
  | CreateDirectory
  | Folder
  | Open (info : FileInfo)
  | OpenSelected
  | BrowseDirectory (info : FileInfo)
  | Refresh
  | Rename (frm : List String) (dst : List String)
  | Save (info : FileInfo)
  | Select (info : FileInfo)
  | MultiSelectRange (idx : Nat)
  | MultiSelect (idx : Nat)
  | MultiSelectSwitch (idx : Nat)
  | UpDirectory
deriving DecidableEq, Repr

namespace FileDialog

/-- The command dispatch of `ui_in_window` (`lib.rs` 710-769); `none` is
a panic inside a multi-select operation. -/
def apply_command (show_files_filter : List String → Bool) (fs : Fs)
    (d : FileDialog) : Command → Option FileDialog
  | .Select info => some (d.select (some info))
  | .MultiSelect idx => d.select_reset_multi idx
  | .MultiSelectRange idx => d.select_range idx
  | .MultiSelectSwitch idx => d.select_switch_multi idx
  | .Folder =>
    some (confirm { d with
      selected_file := some { path := d.get_folder, dir := true, selected := true } })
  | .Open info => some ((d.select (some info)).open_selected show_files_filter fs)
  | .OpenSelected => some (d.open_selected show_files_filter fs)
  | .BrowseDirectory dir =>
    some ({ d with selected_file := some dir }.open_selected show_files_filter fs)
  | .Save file => some (confirm { d with selected_file := some file })
  | .Cancel => some { d with state := .Cancelled }
  | .Refresh => some (d.refresh show_files_filter fs)
  | .UpDirectory =>
    if d.path.isEmpty then some d
    else some (refresh show_files_filter fs { d with path := d.path.dropLast })
  | .CreateDirectory =>
    let name := if d.filename_edit.isEmpty then "New folder" else d.filename_edit
    let p := d.path ++ [name]
    if fs.createDirOk p then
      some ((d.refresh show_files_filter fs).select (some (FileInfo.new fs p)))
    else some d
  | .Rename frm dst =>
    if fs.renameOk frm dst then
      some ((d.refresh show_files_filter fs).select (some (FileInfo.new fs dst)))
    else some d

/-- `fn show(&mut self, ctx)` (`lib.rs` 432-450): in state `Open`,
Escape cancels, the UI layer runs (reporting at most one `Command`,
here `cmd`, and whether the user closed the window, here `closed`);
in any other state the dialog is reset to `Closed` without touching the
input.  `none` is a panic inside command processing.  (`show` is a Lean
keyword, hence the name `show_dialog`.) -/
def show_dialog (show_files_filter : List String → Bool) (fs : Fs)
    (d : FileDialog) (esc : Bool) (closed : Bool) (cmd : Option Command) :
    Option FileDialog :=
  match d.state with
  | .Open =>
    let d := if esc then { d with state := .Cancelled } else d
    let after :=
      match cmd with
      | none => some d
      | some c => d.apply_command show_files_filter fs c
    after.map fun d' => if closed then { d' with state := .Cancelled } else d'
  | _ => some { d with state := .Closed }

end FileDialog

/-! ### Concrete sample states, used by witnesses and counterexamples -/

/-- A plain file entry `tmp/a`. -/
def entryA : FileInfo := { path := ["tmp", "a"], dir := false, selected := false }

/-- A plain file entry `tmp/b`. -/
def entryB : FileInfo := { path := ["tmp", "b"], dir := false, selected := false }

/-- A selected file entry `tmp/c`. -/
def entryC : FileInfo := { path := ["tmp", "c"], dir := false, selected := true }

/-- A baseline single-select dialog over `tmp` with `tmp/a` selected. -/
def baseDialog : FileDialog := {
  path := ["tmp"]
  path_edit := "tmp"
  selected_file := some entryA
  filename_edit := "a"
  files := .ok []
  state := .Open
  dialog_type := .OpenFile
  rename := true
  new_folder := true
  multi_select_enabled := false
  range_start := none
  show_hidden := false }

/-- A multi-select dialog over three entries, anchored at index 0. -/
def multiDialog : FileDialog :=
  { baseDialog with
    multi_select_enabled := true
    selected_file := none
    files := .ok [entryA, entryB, entryC]
    range_start := some 0 }

/-- A multi-select dialog whose listing has a single entry, no anchor. -/
def shortDialog : FileDialog :=
  { baseDialog with
    multi_select_enabled := true
    selected_file := none
    files := .ok [entryC]
    range_start := none }

/-- `shortDialog` with an anchor at index 0. -/
def shortAnchoredDialog : FileDialog :=
  { shortDialog with range_start := some 0 }

/-- A dialog whose listing is a captured I/O error. -/
def errDialog : FileDialog :=
  { baseDialog with files := .error "permission denied", range_start := some 0 }

/-- A dialog with no selection. -/
def noSelDialog : FileDialog :=
  { baseDialog with selected_file := none }

/-- A dialog with an empty filename buffer. -/
def emptyNameDialog : FileDialog :=
  { baseDialog with filename_edit := "" }

/-- A dialog in the terminal `Cancelled` state. -/
def cancelledDialog : FileDialog :=
  { baseDialog with state := .Cancelled }

/-- A sample filesystem oracle: one file under `tmp`; renames succeed
exactly for non-empty source paths. -/
def sampleFs : Fs := {
  readDir := fun _ => .ok [{ path := ["tmp", "a"], dir := false, isFile := true }]
  isDir := fun _ => false
  renameOk := fun frm _ => !frm.isEmpty
  createDirOk := fun _ => true }

/-- An unsorted raw enumeration: file `b`, directory `d`, file `a`. -/
def rawListing : List RawEntry := [
  { path := ["tmp", "b"], dir := false, isFile := true },
  { path := ["tmp", "d"], dir := true, isFile := false },
  { path := ["tmp", "a"], dir := false, isFile := true }]

/-- The listing produced from `rawListing`: the directory first, then
the files in name order. -/
def sortedListing : List FileInfo := [
  { path := ["tmp", "d"], dir := true, selected := false },
  { path := ["tmp", "a"], dir := false, selected := false },
  { path := ["tmp", "b"], dir := false, selected := false }]

/-! ### Order-theoretic facts about the listing comparator -/

theorem charsCmp_gt_iff : ∀ x y : List Char, charsCmp x y = .gt ↔ charsCmp y x = .lt
  | [], [] => by simp [charsCmp]
  | [], _ :: _ => by simp [charsCmp]
  | _ :: _, [] => by simp [charsCmp]
  | a :: as, b :: bs => by
    simp only [charsCmp]
    rcases lt_trichotomy a b with h | h | h
    · simp [h, lt_asymm h]
    · subst h
      simp [lt_irrefl, charsCmp_gt_iff as bs]
    · simp [h, lt_asymm h]

theorem charsCmp_trans : ∀ x y z : List Char,
    charsCmp x y ≠ .gt → charsCmp y z ≠ .gt → charsCmp x z ≠ .gt
  | [], _, [] => by simp [charsCmp]
  | [], _, _ :: _ => by simp [charsCmp]
  | x0 :: xs, [], _ => by simp [charsCmp]
  | _ :: _, _ :: _, [] => by simp [charsCmp]
  | a :: as, b :: bs, c :: cs => by
    simp only [charsCmp]
    rcases lt_trichotomy a b with hab | hab | hab <;>
      rcases lt_trichotomy b c with hbc | hbc | hbc
    · simp [hab, lt_trans hab hbc, lt_asymm (lt_trans hab hbc)]
    · subst hbc; simp [hab, lt_asymm hab]
    · rcases lt_trichotomy a c with hac | hac | hac
      · simp [hab, hbc, hac, lt_asymm hbc]
      · subst hac; simp [hab, hbc, lt_asymm hbc, lt_irrefl]
      · simp [hab, hbc, lt_asymm hbc]
    · subst hab; simp [hbc, lt_asymm hbc]
    · subst hab; subst hbc
      simp [lt_irrefl]
      exact charsCmp_trans as bs cs
    · subst hab; simp [hbc, lt_asymm hbc]
    · rcases lt_trichotomy a c with hac | hac | hac
      · simp [hab, hbc, hac, lt_asymm hab, lt_asymm hbc]
      · subst hac; simp [hab, hbc, lt_asymm hab, lt_asymm hbc, lt_irrefl]
      · simp [hab, hbc, hac, lt_asymm hab, lt_asymm hbc]
    · subst hbc; simp [hab, lt_asymm hab]
    · have hac := lt_trans hbc hab
      simp [hab, hbc, hac, lt_asymm hab, lt_asymm hbc, lt_asymm hac]

theorem strLe_trans {a b c : String} (h1 : strLe a b) (h2 : strLe b c) : strLe a c :=
  charsCmp_trans a.data b.data c.data h1 h2

theorem strLe_total (a b : String) : strLe a b ∨ strLe b a := by
  unfold strLe strCmp
  cases hx : charsCmp a.data b.data
  · left; simp
  · left; simp
  · right
    rw [(charsCmp_gt_iff a.data b.data).mp hx]
    simp

theorem optNameCmp_trans {x y z : Option String}
    (hxy : optNameCmp x y ≠ .gt) (hyz : optNameCmp y z ≠ .gt) :
    optNameCmp x z ≠ .gt := by
  match x, y, z with
  | none, _, none => simp [optNameCmp]
  | none, _, some _ => simp [optNameCmp]
  | some _, none, _ => exact absurd rfl hxy
  | some _, some _, none => exact absurd rfl hyz
  | some a, some b, some c => exact strLe_trans (a := a) (b := b) (c := c) hxy hyz

theorem optNameCmp_total (x y : Option String) :
    optNameCmp x y ≠ .gt ∨ optNameCmp y x ≠ .gt := by
  match x, y with
  | none, none => left; simp [optNameCmp]
  | none, some _ => left; simp [optNameCmp]
  | some _, none => right; simp [optNameCmp]
  | some a, some b => exact strLe_total a b

theorem fiLe_iff (a b : FileInfo) :
    fiLe a b ↔
      (a.dir = b.dir ∧ optNameCmp a.path.getLast? b.path.getLast? ≠ .gt) ∨
      (a.dir = true ∧ b.dir = false) := by
  unfold fiLe fileInfoCmp
  by_cases h : a.dir = b.dir
  · simp [h]
  · cases ha : a.dir <;> cases hb : b.dir <;>
      simp_all [boolCmp]

theorem fiLe_trans {a b c : FileInfo} (hab : fiLe a b) (hbc : fiLe b c) : fiLe a c := by
  rw [fiLe_iff] at hab hbc ⊢
  rcases hab with ⟨hd1, h1⟩ | ⟨ha, hb⟩ <;> rcases hbc with ⟨hd2, h2⟩ | ⟨hb', hc⟩
  · exact Or.inl ⟨hd1.trans hd2, optNameCmp_trans h1 h2⟩
  · exact Or.inr ⟨hd1.trans hb', hc⟩
  · exact Or.inr ⟨ha, hd2 ▸ hb⟩
  · exact Or.inr ⟨ha, hc⟩

theorem fiLe_total (a b : FileInfo) : fiLe a b ∨ fiLe b a := by
  rw [fiLe_iff, fiLe_iff]
  by_cases h : a.dir = b.dir
  · rcases optNameCmp_total a.path.getLast? b.path.getLast? with h1 | h1
    · exact Or.inl (Or.inl ⟨h, h1⟩)
    · exact Or.inr (Or.inl ⟨h.symm, h1⟩)
  · cases ha : a.dir <;> cases hb : b.dir
    · exact absurd (ha.trans hb.symm) h
    · exact Or.inr (Or.inr ⟨rfl, rfl⟩)
    · exact Or.inl (Or.inr ⟨rfl, rfl⟩)
    · exact absurd (ha.trans hb.symm) h

theorem strLe_empty (s : String) : strLe "" s := by
  unfold strLe strCmp
  cases h : s.data <;> simp [charsCmp]

theorem optNameCmp_le {x y : Option String} (h : optNameCmp x y ≠ .gt) :
    strLe (x.getD "") (y.getD "") := by
  match x, y with
  | none, none => simp [strLe, strCmp, charsCmp]
  | none, some s => exact strLe_empty s
  | some _, none => exact absurd rfl h
  | some s, some t => exact h

/-! ### Behaviour of the `select_range` update loop -/

theorem setSelectedGo_length : ∀ (n : Nat) (files files' : List FileInfo) (lo : Nat),
    FileDialog.setSelectedGo files lo n = some files' → files'.length = files.length
  | 0, files, files', lo => by
    intro h
    simp only [FileDialog.setSelectedGo, Option.some.injEq] at h
    rw [← h]
  | n + 1, files, files', lo => by
    intro h
    simp only [FileDialog.setSelectedGo] at h
    cases hget : files[lo]? with
    | none => rw [hget] at h; exact absurd h (by simp)
    | some f =>
      rw [hget] at h
      rw [setSelectedGo_length n _ files' (lo + 1) h, List.length_set]

theorem setSelectedGo_isSome : ∀ (n : Nat) (files : List FileInfo) (lo : Nat),
    (FileDialog.setSelectedGo files lo n).isSome ↔ (n = 0 ∨ lo + n ≤ files.length)
  | 0, files, lo => by simp [FileDialog.setSelectedGo]
  | n + 1, files, lo => by
    simp only [FileDialog.setSelectedGo]
    cases hget : files[lo]? with
    | none =>
      have hlen : files.length ≤ lo := by
        by_contra hc
        rw [not_le] at hc
        rw [List.getElem?_eq_getElem hc] at hget
        exact Option.noConfusion hget
      constructor
      · intro hc
        exact absurd hc (by simp)
      · intro hc
        rcases hc with hc | hc
        · exact absurd hc (Nat.succ_ne_zero n)
        · exact absurd hc (by omega)
    | some f =>
      have hlo : lo < files.length := (List.getElem?_eq_some.mp hget).1
      rw [setSelectedGo_isSome n _ (lo + 1)]
      rw [List.length_set]
      omega

theorem setSelectedGo_getElem? : ∀ (n : Nat) (files files' : List FileInfo) (lo : Nat),
    FileDialog.setSelectedGo files lo n = some files' →
    ∀ i, files'[i]? =
      if lo ≤ i ∧ i < lo + n then (files[i]?).map (fun f => { f with selected := true })
      else files[i]?
  | 0, files, files', lo => by
    intro h i
    simp only [FileDialog.setSelectedGo, Option.some.injEq] at h
    subst h
    have : ¬ (lo ≤ i ∧ i < lo + 0) := by omega
    rw [if_neg this]
  | n + 1, files, files', lo => by
    intro h i
    simp only [FileDialog.setSelectedGo] at h
    cases hget : files[lo]? with
    | none => rw [hget] at h; exact absurd h (by simp)
    | some f =>
      rw [hget] at h
      have hlo : lo < files.length := (List.getElem?_eq_some.mp hget).1
      have ih := setSelectedGo_getElem? n _ files' (lo + 1) h i
      by_cases hi : i = lo
      · subst hi
        have hcond : ¬ (i + 1 ≤ i ∧ i < i + 1 + n) := by omega
        rw [if_neg hcond] at ih
        rw [ih, List.getElem?_set_eq_of_lt _ hlo, hget]
        have : i ≤ i ∧ i < i + (n + 1) := by omega
        rw [if_pos this]
        rfl
      · rw [ih, List.getElem?_set_ne (fun hc => hi hc.symm)]
        by_cases hc : lo + 1 ≤ i ∧ i < lo + 1 + n
        · rw [if_pos hc, if_pos (by omega)]
        · rw [if_neg hc, if_neg (by omega)]

/-! ### Counting helpers for the at-most-one-selected invariant -/

theorem countP_set_le (p : FileInfo → Bool) :
    ∀ (l : List FileInfo) (i : Nat) (a : FileInfo),
      (l.set i a).countP p ≤ l.countP p + 1
  | [], _, _ => by simp
  | x :: xs, 0, a => by
    simp only [List.set, List.countP_cons]
    have := List.countP_cons p a xs
    split <;> omega
  | x :: xs, i + 1, a => by
    simp only [List.set, List.countP_cons]
    have := countP_set_le p xs i a
    omega

theorem countP_cleared (files : List FileInfo) :
    (files.map fun f => { f with selected := false }).countP (fun f => f.selected) = 0 := by
  rw [List.countP_eq_zero]
  intro a ha
  rcases List.mem_map.mp ha with ⟨b, _, hb⟩
  rw [← hb]
  simp

/-! ### Claim theorems -/

/-- C2, counterexample to the claim as stated: with `filename_edit = "a"`
and a live selection, `select(None)` leaves the filename buffer
untouched instead of clearing it. -/
theorem select_none_keeps_filename_edit :
    (baseDialog.select none).filename_edit ≠ "" := by decide

/-- C2 (amended): `select(None)` clears `selected_file` but leaves
`filename_edit` unchanged; `select(Some(entry))` sets `selected_file` to
the entry and copies its display name into `filename_edit`. -/
theorem select_spec (d : FileDialog) (e : FileInfo) :
    (d.select none).selected_file = none ∧
    (d.select none).filename_edit = d.filename_edit ∧
    (d.select (some e)).selected_file = some e ∧
    (d.select (some e)).filename_edit = get_file_name e :=
  ⟨rfl, rfl, rfl, rfl⟩

/-- C8: with an empty `filename_edit`, `can_save` is `false` whatever
the injected filename predicate does, so the Save button (enabled by
`can_save`) cannot issue the Save command. -/
theorem can_save_false_of_empty (filename_filter : String → Bool)
    (d : FileDialog) (h : d.filename_edit = "") :
    d.can_save filename_filter = false := by
  unfold FileDialog.can_save
  rw [h]
  rfl

/-- C8, witness. -/
theorem can_save_false_of_empty_witness :
    emptyNameDialog.filename_edit = "" ∧
    emptyNameDialog.can_save (fun _ => true) = false :=
  ⟨rfl, can_save_false_of_empty (fun _ => true) emptyNameDialog rfl⟩

/-- C9: `can_rename` is `false` whenever there is no selection, and
whenever `filename_edit` equals the selected entry's display name. -/
theorem can_rename_false (d : FileDialog) :
    (d.selected_file = none → d.can_rename = false) ∧
    (∀ f, d.selected_file = some f → d.filename_edit = get_file_name f →
      d.can_rename = false) := by
  constructor
  · intro h
    simp [FileDialog.can_rename, h]
  · intro f h he
    simp [FileDialog.can_rename, h, he]

/-- C9, witness: no selection, and a selection whose display name equals
the buffer. -/
theorem can_rename_false_witness :
    (noSelDialog.selected_file = none ∧ noSelDialog.can_rename = false) ∧
    (baseDialog.selected_file = some entryA ∧
      baseDialog.filename_edit = get_file_name entryA ∧
      baseDialog.can_rename = false) :=
  ⟨⟨rfl, (can_rename_false noSelDialog).1 rfl⟩,
   ⟨rfl, rfl, (can_rename_false baseDialog).2 entryA rfl rfl⟩⟩

/-- C6: with an error listing, `select_reset_multi` and `select_range`
leave the whole state (hence the listing) unchanged,
`select_switch_multi` leaves the listing unchanged, the multi-selection
query returns the empty collection, and `read_folder` stores a read
error as the listing's value. -/
theorem err_listing_inert (d : FileDialog) (idx : Nat) (e : String)
    (sf : List String → Bool) (hidden : Bool)
    (h : d.files = .error e) :
    d.select_reset_multi idx = some d ∧
    d.select_range idx = some d ∧
    (∃ d', d.select_switch_multi idx = some d' ∧ d'.files = d.files) ∧
    d.selection = [] ∧
    read_folder sf hidden (.error e) = .error e := by
  refine ⟨?_, ?_, ⟨{ d with range_start := none }, ?_, rfl⟩, ?_, rfl⟩ <;>
    simp [FileDialog.select_reset_multi, FileDialog.select_range,
      FileDialog.select_switch_multi, FileDialog.selection, h]

/-- C6, witness. -/
theorem err_listing_inert_witness :
    errDialog.files = .error "permission denied" ∧
    errDialog.select_reset_multi 0 = some errDialog ∧
    errDialog.select_range 0 = some errDialog ∧
    (∃ d', errDialog.select_switch_multi 0 = some d' ∧ d'.files = errDialog.files) ∧
    errDialog.selection = [] ∧
    read_folder (fun _ => true) false (.error "permission denied") =
      .error "permission denied" :=
  ⟨rfl, err_listing_inert errDialog 0 "permission denied" (fun _ => true) false rfl⟩

/-- C10: from any state other than `Open` (`Closed`, `Cancelled` or
`Selected`), a `show` call resets the state to `Closed` and ignores the
frame's input entirely. -/
theorem show_resets_terminal (sf : List String → Bool) (fs : Fs)
    (d : FileDialog) (esc closed : Bool) (cmd : Option Command)
    (h : d.state ≠ State.Open) :
    d.show_dialog sf fs esc closed cmd = some { d with state := .Closed } := by
  cases hs : d.state with
  | Open => exact absurd hs h
  | Closed => simp [FileDialog.show_dialog, hs]
  | Cancelled => simp [FileDialog.show_dialog, hs]
  | Selected => simp [FileDialog.show_dialog, hs]

/-- C10, witness: a `Cancelled` dialog is reset to `Closed` by the next
`show`, so the cancellation is observable only until that call. -/
theorem show_resets_terminal_witness :
    cancelledDialog.state ≠ State.Open ∧
    cancelledDialog.show_dialog (fun _ => true) sampleFs true false
      (some (.Select entryB)) = some { cancelledDialog with state := .Closed } :=
  ⟨by decide,
   show_resets_terminal (fun _ => true) sampleFs cancelledDialog true false
     (some (.Select entryB)) (by decide)⟩

/-- C7: the Rename command is atomic with respect to the dialog: a
failed `fs::rename` leaves every field of the controller unchanged; a
successful one refreshes the listing and makes the renamed entry (at
the destination path) the selection, with its display name in the
filename buffer. -/
theorem rename_atomic (sf : List String → Bool) (fs : Fs) (d : FileDialog)
    (frm dst : List String) :
    (fs.renameOk frm dst = false →
      d.apply_command sf fs (.Rename frm dst) = some d) ∧
    (fs.renameOk frm dst = true →
      ∃ d', d.apply_command sf fs (.Rename frm dst) = some d' ∧
        d'.files = read_folder sf d.show_hidden (fs.readDir d.path) ∧
        d'.selected_file = some (FileInfo.new fs dst) ∧
        d'.filename_edit = get_file_name (FileInfo.new fs dst) ∧
        d'.path = d.path ∧ d'.state = d.state) := by
  constructor
  · intro h
    simp [FileDialog.apply_command, h]
  · intro h
    refine ⟨(d.refresh sf fs).select (some (FileInfo.new fs dst)),
      ?_, rfl, rfl, rfl, rfl, rfl⟩
    simp [FileDialog.apply_command, h]

/-- C7, witness: under `sampleFs`, renaming from the empty path fails
and leaves the state unchanged; renaming `tmp/a` to `tmp/b` succeeds,
refreshes the listing and selects `tmp/b`. -/
theorem rename_atomic_witness :
    (sampleFs.renameOk [] ["tmp", "b"] = false ∧
      baseDialog.apply_command (fun _ => true) sampleFs (.Rename [] ["tmp", "b"]) =
        some baseDialog) ∧
    (sampleFs.renameOk ["tmp", "a"] ["tmp", "b"] = true ∧
      ∃ d', baseDialog.apply_command (fun _ => true) sampleFs
          (.Rename ["tmp", "a"] ["tmp", "b"]) = some d' ∧
        d'.files = read_folder (fun _ => true) baseDialog.show_hidden
          (sampleFs.readDir baseDialog.path) ∧
        d'.selected_file = some (FileInfo.new sampleFs ["tmp", "b"]) ∧
        d'.filename_edit = get_file_name (FileInfo.new sampleFs ["tmp", "b"]) ∧
        d'.path = baseDialog.path ∧ d'.state = baseDialog.state) :=
  ⟨⟨rfl, (rename_atomic (fun _ => true) sampleFs baseDialog [] ["tmp", "b"]).1 rfl⟩,
   ⟨rfl, (rename_atomic (fun _ => true) sampleFs baseDialog
     ["tmp", "a"] ["tmp", "b"]).2 rfl⟩⟩

/-- C5, counterexample to the claim as stated: on a one-entry listing,
index 1 is stale, and each multi-select operation panics (embedded
`none`) instead of being a bounds-checked no-op. -/
theorem stale_index_panics :
    shortDialog.select_reset_multi 1 = none ∧
    shortDialog.select_switch_multi 1 = none ∧
    shortAnchoredDialog.select_range 1 = none := by decide

/-- C5 (amended): the multi-select operations are not bounds-checked:
with a successful listing and an index `idx ≥ length`,
`select_reset_multi` and `select_switch_multi` panic (index out of
bounds), and `select_range` panics whenever an anchor exists; only
without an anchor is `select_range` a no-op on such an index. -/
theorem stale_index_behavior (d : FileDialog) (files : List FileInfo) (idx : Nat)
    (h : d.files = .ok files) (hidx : files.length ≤ idx) :
    d.select_reset_multi idx = none ∧
    d.select_switch_multi idx = none ∧
    (∀ a, d.range_start = some a → d.select_range idx = none) ∧
    (d.range_start = none → d.select_range idx = some d) := by
  have hnone : files[idx]? = none := List.getElem?_eq_none hidx
  refine ⟨?_, ?_, ?_, ?_⟩
  · simp [FileDialog.select_reset_multi, h, hnone]
  · simp [FileDialog.select_switch_multi, h, hnone]
  · intro a ha
    simp only [FileDialog.select_range, h, ha]
    cases hres : FileDialog.setSelectedGo files (min idx a) (max idx a + 1 - min idx a) with
    | none => rfl
    | some files' =>
      exfalso
      have hs := (setSelectedGo_isSome (max idx a + 1 - min idx a) files (min idx a)).mp
        (by rw [hres]; rfl)
      rcases hs with hz | hle
      · omega
      · omega
  · intro hnoanchor
    simp [FileDialog.select_range, h, hnoanchor]

/-- C5 (amended), witness. -/
theorem stale_index_behavior_witness :
    shortDialog.files = .ok [entryC] ∧
    ([entryC] : List FileInfo).length ≤ 1 ∧
    (shortDialog.select_reset_multi 1 = none ∧
     shortDialog.select_switch_multi 1 = none ∧
     (∀ a, shortDialog.range_start = some a → shortDialog.select_range 1 = none) ∧
     (shortDialog.range_start = none → shortDialog.select_range 1 = some shortDialog)) :=
  ⟨rfl, by decide, stale_index_behavior shortDialog [entryC] 1 rfl (by decide)⟩

/-- C4: `select_reset_multi` on an in-range index clears every entry's
flag, sets `idx`'s flag to the negation of its previous value, sets the
anchor to `idx`; afterwards at most one entry is selected. -/
theorem select_reset_multi_spec (d : FileDialog) (files : List FileInfo) (idx : Nat)
    (h : d.files = .ok files) (hidx : idx < files.length) :
    ∃ files',
      d.select_reset_multi idx =
        some { d with files := .ok files', range_start := some idx } ∧
      files'.length = files.length ∧
      (∀ i, i ≠ idx → files'[i]? = (files[i]?).map fun f => { f with selected := false }) ∧
      files'[idx]? = (files[idx]?).map (fun f => { f with selected := !f.selected }) ∧
      files'.countP (fun f => f.selected) ≤ 1 := by
  have hget : files[idx]? = some (files.get ⟨idx, hidx⟩) := List.getElem?_eq_getElem hidx
  refine ⟨(files.map fun f => { f with selected := false }).set idx
    { files.get ⟨idx, hidx⟩ with selected := !(files.get ⟨idx, hidx⟩).selected },
    ?_, ?_, ?_, ?_, ?_⟩
  · simp [FileDialog.select_reset_multi, h, hget]
  · rw [List.length_set, List.length_map]
  · intro i hi
    rw [List.getElem?_set_ne (Ne.symm hi), List.getElem?_map]
  · rw [List.getElem?_set_eq_of_lt _ (by rw [List.length_map]; exact hidx), hget]
    rfl
  · calc ((files.map fun f => { f with selected := false }).set idx
        { files.get ⟨idx, hidx⟩ with selected := !(files.get ⟨idx, hidx⟩).selected }).countP
          (fun f => f.selected)
        ≤ (files.map fun f => { f with selected := false }).countP (fun f => f.selected) + 1 :=
          countP_set_le _ _ _ _
      _ = 1 := by rw [countP_cleared]

/-- C4, witness: resetting the selection on index 1 of a three-entry
listing. -/
theorem select_reset_multi_spec_witness :
    multiDialog.files = .ok [entryA, entryB, entryC] ∧
    1 < ([entryA, entryB, entryC] : List FileInfo).length ∧
    (∃ files',
      multiDialog.select_reset_multi 1 =
        some { multiDialog with files := .ok files', range_start := some 1 } ∧
      files'.length = ([entryA, entryB, entryC] : List FileInfo).length ∧
      (∀ i, i ≠ 1 → files'[i]? =
        (([entryA, entryB, entryC] : List FileInfo)[i]?).map
          fun f => { f with selected := false }) ∧
      files'[1]? = (([entryA, entryB, entryC] : List FileInfo)[1]?).map
        (fun f => { f with selected := !f.selected }) ∧
      files'.countP (fun f => f.selected) ≤ 1) :=
  ⟨rfl, by decide, select_reset_multi_spec multiDialog [entryA, entryB, entryC] 1 rfl (by decide)⟩

/-- C1: with a successful listing, an anchor `a` and a range click at an
in-range index `idx`, `select_range` sets `selected = true` on exactly
the closed interval `[min idx a, max idx a]`, leaves every entry outside
the interval unchanged, and leaves the anchor unchanged (the resulting
state differs from `d` only in `files`); with no anchor it changes
nothing. -/
theorem select_range_spec (d : FileDialog) (files : List FileInfo) (idx : Nat)
    (h : d.files = .ok files) :
    (∀ a, d.range_start = some a → a < files.length → idx < files.length →
      ∃ files', d.select_range idx = some { d with files := .ok files' } ∧
        files'.length = files.length ∧
        (∀ i, min idx a ≤ i → i ≤ max idx a →
          files'[i]? = (files[i]?).map fun f => { f with selected := true }) ∧
        (∀ i, i < min idx a ∨ max idx a < i → files'[i]? = files[i]?)) ∧
    (d.range_start = none → d.select_range idx = some d) := by
  constructor
  · intro a ha hA hidx
    obtain ⟨files', hgo⟩ : ∃ files',
        FileDialog.setSelectedGo files (min idx a) (max idx a + 1 - min idx a) = some files' :=
      Option.isSome_iff_exists.mp
        ((setSelectedGo_isSome (max idx a + 1 - min idx a) files (min idx a)).mpr
          (Or.inr (by omega)))
    refine ⟨files', ?_, setSelectedGo_length _ _ _ _ hgo, ?_, ?_⟩
    · simp [FileDialog.select_range, h, ha, hgo]
    · intro i h1 h2
      have hi := setSelectedGo_getElem? _ _ _ _ hgo i
      rw [if_pos ⟨h1, by omega⟩] at hi
      exact hi
    · intro i hi
      have hq := setSelectedGo_getElem? _ _ _ _ hgo i
      rw [if_neg (by omega)] at hq
      exact hq
  · intro hnone
    simp [FileDialog.select_range, h, hnone]

/-- C1, witness: anchor 0, range click at 2 on a three-entry listing. -/
theorem select_range_spec_witness :
    multiDialog.files = .ok [entryA, entryB, entryC] ∧
    multiDialog.range_start = some 0 ∧
    0 < ([entryA, entryB, entryC] : List FileInfo).length ∧
    2 < ([entryA, entryB, entryC] : List FileInfo).length ∧
    (∃ files', multiDialog.select_range 2 = some { multiDialog with files := .ok files' } ∧
      files'.length = ([entryA, entryB, entryC] : List FileInfo).length ∧
      (∀ i, min 2 0 ≤ i → i ≤ max 2 0 →
        files'[i]? = (([entryA, entryB, entryC] : List FileInfo)[i]?).map
          fun f => { f with selected := true }) ∧
      (∀ i, i < min 2 0 ∨ max 2 0 < i →
        files'[i]? = ([entryA, entryB, entryC] : List FileInfo)[i]?)) :=
  ⟨rfl, rfl, by decide, by decide,
   (select_range_spec multiDialog [entryA, entryB, entryC] 2 rfl).1 0 rfl
     (by decide) (by decide)⟩

/-- C3: every successful listing produced by `read_folder` is sorted
with every directory entry strictly before every non-directory entry,
and lexicographically by display name within each of the two groups. -/
theorem read_folder_sorted (sf : List String → Bool) (hidden : Bool)
    (raw : Except String (List RawEntry)) (out : List FileInfo)
    (h : read_folder sf hidden raw = .ok out) :
    out.Pairwise fun a b =>
      (b.dir = true → a.dir = true) ∧
      (a.dir = b.dir → strLe (get_file_name a) (get_file_name b)) := by
  match raw with
  | .error e => exact absurd h (by simp [read_folder, Except.map])
  | .ok entries =>
    have hout : out = (entries.filterMap (readFolderEntry sf hidden)).insertionSort fiLe := by
      have h' := h
      simp only [read_folder, Except.map] at h'
      exact (Except.ok.inj h').symm
    subst hout
    have hs := @List.sorted_insertionSort FileInfo fiLe _ ⟨fiLe_total⟩
      ⟨fun _ _ _ hab hbc => fiLe_trans hab hbc⟩ (entries.filterMap (readFolderEntry sf hidden))
    refine List.Pairwise.imp ?_ hs
    intro a b hab
    rw [fiLe_iff] at hab
    constructor
    · intro hb
      rcases hab with ⟨hd, _⟩ | ⟨ha, _⟩
      · exact hd.trans hb
      · exact ha
    · intro hd
      rcases hab with ⟨_, h1⟩ | ⟨ha, hb⟩
      · exact optNameCmp_le h1
      · rw [hd, hb] at ha
        exact absurd ha (by simp)

/-- C3, witness: an unsorted enumeration (file `b`, directory `d`,
file `a`) lists as `[d, a, b]`, which satisfies the sort invariant. -/
theorem read_folder_sorted_witness :
    read_folder (fun _ => true) false (.ok rawListing) = .ok sortedListing ∧
    sortedListing.Pairwise (fun a b =>
      (b.dir = true → a.dir = true) ∧
      (a.dir = b.dir → strLe (get_file_name a) (get_file_name b))) :=
  ⟨by decide,
   read_folder_sorted (fun _ => true) false (.ok rawListing) sortedListing (by decide)⟩

end EguiFile
